import Mathlib

/-!
Shallow embedding of `src/server.js` (build-request pipeline server).

The server accepts a build request over HTTP, verifies a shared secret,
acknowledges immediately, and then runs a detached pipeline:
LLM code generation, GitHub repository creation with sequential file
writes, GitHub Pages enablement, a fixed settling wait, and a retrying
notification POST to a caller-supplied evaluation URL.

External effects (the OpenAI call, the Octokit calls, the axios POST,
timers) are modelled by an environment `Env` fixing each collaborator's
outcome, and every function returns the ordered list of external `Event`s
it performs together with its JavaScript result (`Except JsError` models
a thrown exception).
-/

/-- A JavaScript exception value. Octokit errors carry an HTTP `status`
(compared with `!== 409` in `enableGitHubPages`); other errors have none. -/
structure JsError where
  status : Option Nat
  message : String
deriving DecidableEq

/-- Outcome of one axios POST attempt in `notifyEvaluation`: either an HTTP
response (status and body) or a transport error / timeout (axios rejects). -/
inductive AttemptOutcome where
  | response (status : Nat) (body : String)
  | transportError
deriving DecidableEq

/-- The HTTP status of an attempt outcome, if a response arrived at all. -/
def statusOf : AttemptOutcome → Option Nat
  | .response s _ => some s
  | .transportError => none

/-- Axios default `validateStatus`: it resolves exactly when
`200 <= status < 300`, and rejects (throws) for any other status. -/
def axios2xx (s : Nat) : Bool := decide (200 ≤ s ∧ s < 300)

/-- An attempt that the `notifyEvaluation` catch-block sees as a failure:
a transport error / timeout, or a response status outside the 2xx class
(axios rejects it). -/
def attemptFails : AttemptOutcome → Bool
  | .response s _ => !axios2xx s
  | .transportError => true

/-- An inline attachment `{name, url}` from the request body. -/
structure Attachment where
  name : String
  url : String
deriving DecidableEq

/-- The JSON body POSTed to `/api/build`. `secret` is `Option` because a
JS object field may be absent (`undefined`). -/
structure BuildBody where
  email : String
  secret : Option String
  task : String
  round : Nat
  nonce : String
  brief : String
  checks : List String
  evaluationUrl : String
  attachments : List Attachment
deriving DecidableEq

/-- The object handed to `processRequest` (the body minus `secret`). -/
structure PipelineData where
  email : String
  task : String
  round : Nat
  nonce : String
  brief : String
  checks : List String
  evaluationUrl : String
  attachments : List Attachment
deriving DecidableEq

/-- Projection of the request body to the background-pipeline argument,
as built at the `processRequest({ email, task, ... })` call site. -/
def pipelineData (b : BuildBody) : PipelineData :=
  { email := b.email, task := b.task, round := b.round, nonce := b.nonce,
    brief := b.brief, checks := b.checks, evaluationUrl := b.evaluationUrl,
    attachments := b.attachments }

/-- The `repo.data` fields of the created GitHub repository that the
pipeline reads: `owner.login`, `html_url`, `default_branch`. There is no
Pages-URL field: the public URL is never returned by the remote system. -/
structure RepoData where
  ownerLogin : String
  htmlUrl : String
  defaultBranch : String
deriving DecidableEq

/-- The JSON body POSTed to the evaluation URL, built once in
`processRequest` step 5. Note `commitSha` is sourced from
`repo.default_branch` in the code. -/
structure CompletionNotice where
  email : String
  task : String
  round : Nat
  nonce : String
  repoUrl : String
  commitSha : String
  pagesUrl : String
deriving DecidableEq

/-- One external effect performed by the server, in program order. -/
inductive Event where
  | llmCall (prompt : String)
  | getAuthUser
  | createRepoCall (name : String)
  | sleep (ms : Nat)
  | fileWriteCall (owner repo filePath message content : String)
  | createPagesCall (owner repo branch srcPath : String)
  | notifyPostCall (url : String) (body : CompletionNotice)
  | logSuccess (task : String)
  | logError (e : JsError)
deriving DecidableEq

/-- Environment fixing the outcome of each external collaborator for one
pipeline run: the OpenAI completion, `users.getAuthenticated`,
`repos.createForAuthenticatedUser`, the k-th
`repos.createOrUpdateFileContents` call, `repos.createPagesSite`, the
outcome of the i-th axios POST attempt, and `new Date().getFullYear()`. -/
structure Env where
  llmResult : Except JsError String
  authUser : Except JsError String
  createRepoResult : Except JsError RepoData
  writeFileResult : Nat → Except JsError Unit
  createPagesResult : Except JsError Unit
  notifyOutcomes : Nat → AttemptOutcome
  currentYear : Nat

/-- Checks rendered as a numbered list, `checks.map((check, i) =>
`$\x7bi + 1\x7d. $\x7bcheck\x7d`).join('\n')` in the source. -/
def numberedChecks (checks : List String) : String :=
  String.intercalate "\n" (checks.enum.map (fun p => toString (p.1 + 1) ++ ". " ++ p.2))

/-- The prompt template of `generateCode`, translated literally. -/
def buildPrompt (brief : String) (attachments : List Attachment) (checks : List String) : String :=
  "Create a complete, production-ready single-page web application based on this brief:\n\n"
    ++ brief
    ++ "\n\nRequirements:\n"
    ++ numberedChecks checks
    ++ "\n\n"
    ++ (if attachments.length > 0 then
          "Attachments provided:\n"
            ++ String.intercalate "\n" (attachments.map (fun a => "- " ++ a.name))
        else "")
    ++ "\n\nGenerate a complete HTML file with inline CSS and JavaScript. The app should:\n- Be a single index.html file\n- Work standalone without external dependencies except CDN libraries\n- Include proper error handling\n- Be mobile-responsive\n- Have clean, professional styling\n\nReturn ONLY the HTML code, nothing else."

/-- Drop one leading newline, the `\n?` part of the fence-stripping regex. -/
def dropLf : List Char → List Char
  | '\n' :: t => t
  | t => t

/-- Left-to-right global replacement of `pat` (plus an optional trailing
newline) by the empty string, as `.replace(/pat\n?/g, '')` does. The fuel
(initialised to the string length) only bounds the recursion; it never
runs out for a nonempty pattern. -/
def fenceStripGo (pat : List Char) : Nat → List Char → List Char
  | 0, l => l
  | _ + 1, [] => []
  | fuel + 1, c :: rest =>
    if List.take pat.length (c :: rest) = pat then
      fenceStripGo pat fuel (dropLf (List.drop pat.length (c :: rest)))
    else
      c :: fenceStripGo pat fuel rest

/-- String-level wrapper for one `.replace(/pat\n?/g, '')` pass. -/
def replaceFence (pat : String) (s : String) : String :=
  String.mk (fenceStripGo pat.data s.data.length s.data)

/-- The markdown-fence cleanup in `generateCode`:
first `/` ++ "```html\\n?" ++ `/g`, then `/` ++ "```\\n?" ++ `/g`. -/
def stripCodeFences (s : String) : String :=
  replaceFence "```" (replaceFence "```html" s)

/-- The README template of `generateReadme`, translated literally. -/
def generateReadme (brief : String) (checks : List String) : String :=
  "# Project Application\n\n## Summary\n"
    ++ brief
    ++ "\n\n## Setup\n1. Clone this repository\n2. Open index.html in a web browser\n\n## Usage\nOpen the deployed GitHub Pages URL or run locally by opening index.html.\n\n## Features\n"
    ++ numberedChecks checks
    ++ "\n\n## Code Explanation\nThis is a single-page application built with vanilla HTML, CSS, and JavaScript. It uses modern web APIs and follows best practices for:\n- Responsive design\n- Error handling\n- User experience\n- Code organization\n\n## License\nMIT License - see LICENSE file for details\n"

/-- The MIT license text of `getMITLicense`, with the interpolated
`new Date().getFullYear()`. -/
def getMITLicense (year : Nat) : String :=
  "MIT License\n\nCopyright (c) "
    ++ toString year
    ++ "\n\nPermission is hereby granted, free of charge, to any person obtaining a copy\nof this software and associated documentation files (the \"Software\"), to deal\nin the Software without restriction, including without limitation the rights\nto use, copy, modify, merge, publish, distribute, sublicense, and/or sell\ncopies of the Software, and to permit persons to whom the Software is\nfurnished to do so, subject to the following conditions:\n\nThe above copyright notice and this permission notice shall be included in all\ncopies or substantial portions of the Software.\n\nTHE SOFTWARE IS PROVIDED \"AS IS\", WITHOUT WARRANTY OF ANY KIND, EXPRESS OR\nIMPLIED, INCLUDING BUT NOT LIMITED TO THE WARRANTIES OF MERCHANTABILITY,\nFITNESS FOR A PARTICULAR PURPOSE AND NONINFRINGEMENT. IN NO EVENT SHALL THE\nAUTHORS OR COPYRIGHT HOLDERS BE LIABLE FOR ANY CLAIM, DAMAGES OR OTHER\nLIABILITY, WHETHER IN AN ACTION OF CONTRACT, TORT OR OTHERWISE, ARISING FROM,\nOUT OF OR IN CONNECTION WITH THE SOFTWARE OR THE USE OR OTHER DEALINGS IN THE\nSOFTWARE."

/-- UTF-8 encoding of one character (what `Buffer.from(string)` uses),
bytes as `Nat`. -/
def utf8Bytes (c : Char) : List Nat :=
  let n := c.toNat
  if n < 128 then [n]
  else if n < 2048 then [192 + n / 64, 128 + n % 64]
  else if n < 65536 then [224 + n / 4096, 128 + n / 64 % 64, 128 + n % 64]
  else [240 + n / 262144, 128 + n / 4096 % 64, 128 + n / 64 % 64, 128 + n % 64]

/-- UTF-8 bytes of a string. -/
def stringUTF8 (s : String) : List Nat := (s.data.map utf8Bytes).flatten

/-- The base64 alphabet. -/
def base64Chars : List Char :=
  "ABCDEFGHIJKLMNOPQRSTUVWXYZabcdefghijklmnopqrstuvwxyz0123456789+/".data

/-- The n-th base64 digit. -/
def b64Char (n : Nat) : Char := base64Chars.getD n 'A'

/-- Standard base64 of a byte list, with `=` padding. -/
def base64Go : List Nat → List Char
  | [] => []
  | [b1] => [b64Char (b1 / 4), b64Char (b1 % 4 * 16), '=', '=']
  | [b1, b2] => [b64Char (b1 / 4), b64Char (b1 % 4 * 16 + b2 / 16), b64Char (b2 % 16 * 4), '=']
  | b1 :: b2 :: b3 :: rest =>
    b64Char (b1 / 4) :: b64Char (b1 % 4 * 16 + b2 / 16)
      :: b64Char (b2 % 16 * 4 + b3 / 64) :: b64Char (b3 % 64) :: base64Go rest

/-- `Buffer.from(content).toString('base64')` from `createGitHubRepo`. -/
def base64Encode (s : String) : String := String.mk (base64Go (stringUTF8 s))

/-- Step 1 of the pipeline, `generateCode(brief, attachments, checks)`:
one OpenAI chat-completion call; on success the returned bundle is the
insertion-ordered object
`[ index.html, README.md, LICENSE ]`. There is no emptiness check on the
model output: whatever content comes back (after fence stripping) becomes
`index.html`. -/
def generateCode (env : Env) (brief : String) (attachments : List Attachment)
    (checks : List String) : List Event × Except JsError (List (String × String)) :=
  let prompt := buildPrompt brief attachments checks
  match env.llmResult with
  | .error e => ([.llmCall prompt], .error e)
  | .ok content =>
    let htmlContent := stripCodeFences content
    ([.llmCall prompt],
      .ok [("index.html", htmlContent),
           ("README.md", generateReadme brief checks),
           ("LICENSE", getMITLicense env.currentYear)])

/-- The sequential `for (const [filename, content] of Object.entries(files))`
loop of `createGitHubRepo`: one `createOrUpdateFileContents` call per entry,
in insertion order, commit message `Add $\x7bfilename\x7d`, base64 content;
`k` counts the write calls already made so `env.writeFileResult k` is the
outcome of the current call. A thrown error aborts the loop at once. -/
def writeFilesGo (env : Env) (owner repo : String) :
    List (String × String) → Nat → List Event × Except JsError Unit
  | [], _ => ([], .ok ())
  | (filename, content) :: rest, k =>
    let ev := Event.fileWriteCall owner repo filename ("Add " ++ filename) (base64Encode content)
    match env.writeFileResult k with
    | .error e => ([ev], .error e)
    | .ok _ =>
      let r := writeFilesGo env owner repo rest (k + 1)
      (ev :: r.1, r.2)

/-- Step 2, `createGitHubRepo(repoName, files)`: look up the authenticated
user, create the repository, wait 3s for it to initialise, then write the
bundle's files one at a time. Returns `repo.data`. -/
def createGitHubRepo (env : Env) (repoName : String) (files : List (String × String)) :
    List Event × Except JsError RepoData :=
  match env.authUser with
  | .error e => ([.getAuthUser], .error e)
  | .ok username =>
    match env.createRepoResult with
    | .error e => ([.getAuthUser, .createRepoCall repoName], .error e)
    | .ok repo =>
      let w := writeFilesGo env username repoName files 0
      (.getAuthUser :: .createRepoCall repoName :: .sleep 3000 :: w.1,
        match w.2 with
        | .error e => .error e
        | .ok _ => .ok repo)

/-- Step 3, `enableGitHubPages(owner, repo)`: one `createPagesSite` call;
a thrown error with `status === 409` (Pages already enabled) is swallowed,
any other error is rethrown. -/
def enableGitHubPages (res : Except JsError Unit) (owner repo : String) :
    List Event × Except JsError Unit :=
  ([.createPagesCall owner repo "main" "/"],
    match res with
    | .ok _ => .ok ()
    | .error e => if e.status = some 409 then .ok () else .error e)

/-- `maxRetries` of `notifyEvaluation`. -/
def maxRetries : Nat := 5

/-- The error thrown after the retry loop exhausts all attempts. -/
def deliveryFailedErr : JsError :=
  { status := none, message := "Failed to notify evaluation API after retries" }

/-- The retry loop of `notifyEvaluation`, attempt index `i`, current
backoff `delay` (ms), `fuel` = remaining loop iterations (`maxRetries - i`
at every real call). Each iteration POSTs the unchanged `data`. If axios
resolves (2xx status) and the status is exactly 200 the function returns;
a 2xx status other than 200 falls through the `if` and re-enters the loop
with no sleep and no doubling; if axios rejects (non-2xx status, transport
error, timeout) the catch block sleeps `delay` and doubles it, but only
when `i < maxRetries - 1`. Exhausting the loop throws `deliveryFailedErr`. -/
def notifyGo (out : Nat → AttemptOutcome) (url : String) (data : CompletionNotice) :
    Nat → Nat → Nat → List Event × Except JsError Unit
  | 0, _, _ => ([], .error deliveryFailedErr)
  | fuel + 1, i, delay =>
    match out i with
    | .response s _ =>
      if axios2xx s then
        if s = 200 then ([.notifyPostCall url data], .ok ())
        else
          let r := notifyGo out url data fuel (i + 1) delay
          (.notifyPostCall url data :: r.1, r.2)
      else if i < maxRetries - 1 then
        let r := notifyGo out url data fuel (i + 1) (delay * 2)
        (.notifyPostCall url data :: .sleep delay :: r.1, r.2)
      else
        let r := notifyGo out url data fuel (i + 1) delay
        (.notifyPostCall url data :: r.1, r.2)
    | .transportError =>
      if i < maxRetries - 1 then
        let r := notifyGo out url data fuel (i + 1) (delay * 2)
        (.notifyPostCall url data :: .sleep delay :: r.1, r.2)
      else
        let r := notifyGo out url data fuel (i + 1) delay
        (.notifyPostCall url data :: r.1, r.2)

/-- Step 5, `notifyEvaluation(data, evaluation_url)`: up to `maxRetries`
POST attempts starting with a 1000ms backoff. -/
def notifyEvaluation (out : Nat → AttemptOutcome) (data : CompletionNotice)
    (url : String) : List Event × Except JsError Unit :=
  notifyGo out url data maxRetries 0 1000

/-- The deterministic repository name, `` `$\x7btask\x7d-round$\x7bround\x7d` ``. -/
def repoNameOf (task : String) (round : Nat) : String :=
  task ++ "-round" ++ toString round

/-- The derived public URL,
`` `https://$\x7bowner\x7d.github.io/$\x7brepoName\x7d/` `` — computed
locally, never read back from GitHub. -/
def pagesUrlOf (owner repoName : String) : String :=
  "https://" ++ owner ++ ".github.io/" ++ repoName ++ "/"

/-- The notification body built in `processRequest` step 5, field by field:
`email`, `task`, `round`, `nonce` from the request; `repo_url` and
`commit_sha` from `repo.data`; `pages_url` derived via `pagesUrlOf`. -/
def mkCompletionNotice (d : PipelineData) (repo : RepoData) : CompletionNotice :=
  { email := d.email, task := d.task, round := d.round, nonce := d.nonce,
    repoUrl := repo.htmlUrl, commitSha := repo.defaultBranch,
    pagesUrl := pagesUrlOf repo.ownerLogin (repoNameOf d.task d.round) }

/-- The detached pipeline `processRequest(data)`. All five steps run inside
one `try`; any thrown error reaches the single `catch`, which only logs —
the function always returns normally (its type has no error channel), so
nothing propagates to the HTTP layer that fired it. -/
def processRequest (env : Env) (d : PipelineData) : List Event :=
  let g := generateCode env d.brief d.attachments d.checks
  match g.2 with
  | .error e => g.1 ++ [.logError e]
  | .ok code =>
    let repoName := repoNameOf d.task d.round
    let c := createGitHubRepo env repoName code
    match c.2 with
    | .error e => g.1 ++ c.1 ++ [.logError e]
    | .ok repo =>
      let p := enableGitHubPages env.createPagesResult repo.ownerLogin repoName
      match p.2 with
      | .error e => g.1 ++ c.1 ++ p.1 ++ [.logError e]
      | .ok _ =>
        let n := notifyEvaluation env.notifyOutcomes (mkCompletionNotice d repo) d.evaluationUrl
        match n.2 with
        | .error e => g.1 ++ c.1 ++ p.1 ++ [.sleep 30000] ++ n.1 ++ [.logError e]
        | .ok _ => g.1 ++ c.1 ++ p.1 ++ [.sleep 30000] ++ n.1 ++ [.logSuccess d.task]

/-- One externally visible action of the `/api/build` route handler. -/
inductive IntakeEvent where
  | respond (status : Nat)
  | runPipeline (d : PipelineData)
deriving DecidableEq

/-- The `/api/build` handler after JSON parsing: `secret` is compared to
`process.env.SECRET_KEY` with `!==` (both `Option String`: `none` models
`undefined`); on mismatch it responds 403 and returns; otherwise it
responds 200 and only then fires the detached `processRequest`. -/
def buildEndpoint (secretKey : Option String) (b : BuildBody) : List IntakeEvent :=
  if b.secret ≠ secretKey then [.respond 403]
  else [.respond 200, .runPipeline (pipelineData b)]

/-- The bodies of the notification POSTs in a trace, in order. -/
def noticesOf (evs : List Event) : List CompletionNotice :=
  evs.filterMap fun e =>
    match e with
    | .notifyPostCall _ b => some b
    | _ => none

/-- The sleeps in a trace, in order (ms). -/
def sleepsOf (evs : List Event) : List Nat :=
  evs.filterMap fun e =>
    match e with
    | .sleep ms => some ms
    | _ => none

/-- The file-write calls in a trace, in order:
(owner, repo, path, commit message, base64 content). -/
def fileWritesOf (evs : List Event) : List (String × String × String × String × String) :=
  evs.filterMap fun e =>
    match e with
    | .fileWriteCall o r p m c => some (o, r, p, m, c)
    | _ => none

/-- The repository names passed to `createForAuthenticatedUser`, in order. -/
def repoCreatesOf (evs : List Event) : List String :=
  evs.filterMap fun e =>
    match e with
    | .createRepoCall n => some n
    | _ => none

/-- Whether an event touches the publishing collaborator (repo creation,
file write, or Pages enablement). -/
def isPublishCall : Event → Bool
  | .createRepoCall _ => true
  | .fileWriteCall _ _ _ _ _ => true
  | .createPagesCall _ _ _ _ => true
  | _ => false

/-- Whether the trace's final event is one of the two terminal log lines
of `processRequest` (and nothing escapes past them). -/
def endsWithLogOnly (evs : List Event) : Bool :=
  match evs.getLast? with
  | some (.logError _) => true
  | some (.logSuccess _) => true
  | _ => false

/-- A concrete evaluation URL used in concrete instantiations. -/
def cUrl : String := "https://eval.example/notify"

/-- A concrete completion notice. -/
def cNotice : CompletionNotice :=
  { email := "a@b.c", task := "t1", round := 2, nonce := "n1",
    repoUrl := "https://github.com/owner1/t1-round2", commitSha := "main",
    pagesUrl := "https://owner1.github.io/t1-round2/" }

/-- A concrete created-repository record. -/
def cRepo : RepoData :=
  { ownerLogin := "owner1", htmlUrl := "https://github.com/owner1/t1-round2",
    defaultBranch := "main" }

/-- A concrete pipeline input. -/
def cData : PipelineData :=
  { email := "a@b.c", task := "t1", round := 2, nonce := "n1", brief := "a brief",
    checks := ["a", "b"], evaluationUrl := cUrl, attachments := [] }

/-- An environment in which every collaborator succeeds. -/
def cEnvOk : Env :=
  { llmResult := .ok "<p>hello</p>", authUser := .ok "owner1",
    createRepoResult := .ok cRepo, writeFileResult := fun _ => .ok (),
    createPagesResult := .ok (), notifyOutcomes := fun _ => .response 200 "ok",
    currentYear := 2026 }

/-- Like `cEnvOk`, but the model returns empty content. -/
def cEnvEmpty : Env := { cEnvOk with llmResult := .ok "" }

/-- A concrete OpenAI failure. -/
def cLlmErr : JsError := { status := none, message := "OpenAI API error" }

/-- Like `cEnvOk`, but the generation call throws. -/
def cEnvLLMFail : Env := { cEnvOk with llmResult := .error cLlmErr }

/-- A concrete file-write failure. -/
def cWErr : JsError := { status := some 422, message := "file write failed" }

/-- Like `cEnvOk`, but the second file-write call (index 1) throws. -/
def cEnvWFail : Env :=
  { cEnvOk with writeFileResult := fun j => if j = 1 then .error cWErr else .ok () }

/-- A concrete non-409 Pages failure. -/
def cPagesErr : JsError := { status := some 500, message := "pages enable failed" }

/-- Like `cEnvOk`, but `createPagesSite` throws a non-409 error. -/
def cEnvPagesFail : Env := { cEnvOk with createPagesResult := .error cPagesErr }

/-- The conflict error GitHub raises when Pages is already enabled. -/
def c409Err : JsError := { status := some 409, message := "already exists" }

/-- Attempt outcomes: two throwing failures (a 500 and a transport error),
then a 200. -/
def wOutN : Nat → AttemptOutcome
  | 0 => .response 500 "err"
  | 1 => .transportError
  | 2 => .response 200 "done"
  | _ => .response 500 "err"

/-- Attempt outcomes: every attempt is a transport error. -/
def wOutFail : Nat → AttemptOutcome := fun _ => .transportError

/-- Attempt outcomes: every attempt is a 204 (2xx-class but not 200). -/
def wOut204 : Nat → AttemptOutcome := fun _ => .response 204 "no content"

/-- Attempt outcomes: every attempt is a 200. -/
def wOut200 : Nat → AttemptOutcome := fun _ => .response 200 "ok"

/-- A concrete three-entry bundle. -/
def cFiles : List (String × String) :=
  [("index.html", "<p>a</p>"), ("README.md", "r"), ("LICENSE", "l")]

/-- A request body carrying the right secret. -/
def cBodyGood : BuildBody :=
  { email := "a@b.c", secret := some "k", task := "t1", round := 2, nonce := "n1",
    brief := "a brief", checks := ["a", "b"], evaluationUrl := cUrl, attachments := [] }

/-- A request body carrying a wrong secret. -/
def cBodyBad : BuildBody := { cBodyGood with secret := some "wrong" }

/-- A request body with the secret field absent. -/
def cBodyNoSecret : BuildBody := { cBodyGood with secret := none }



@[simp] lemma noticesOf_nil : noticesOf [] = [] := rfl

@[simp] lemma noticesOf_post (u : String) (b : CompletionNotice) (l : List Event) :
    noticesOf (.notifyPostCall u b :: l) = b :: noticesOf l := rfl

@[simp] lemma noticesOf_sleepEv (ms : Nat) (l : List Event) :
    noticesOf (.sleep ms :: l) = noticesOf l := rfl

@[simp] lemma noticesOf_append (l1 l2 : List Event) :
    noticesOf (l1 ++ l2) = noticesOf l1 ++ noticesOf l2 :=
  List.filterMap_append l1 l2 _

@[simp] lemma sleepsOf_nil : sleepsOf [] = [] := rfl

@[simp] lemma sleepsOf_post (u : String) (b : CompletionNotice) (l : List Event) :
    sleepsOf (.notifyPostCall u b :: l) = sleepsOf l := rfl

@[simp] lemma sleepsOf_sleepEv (ms : Nat) (l : List Event) :
    sleepsOf (.sleep ms :: l) = ms :: sleepsOf l := rfl

/-- Shift of a bounded existential past an index known not to witness it. -/
lemma exists_shift (P : Nat → Prop) (i fuel : Nat) (hPi : ¬ P i) :
    (∃ j, i + 1 ≤ j ∧ j < i + 1 + fuel ∧ P j) ↔ ∃ j, i ≤ j ∧ j < i + (fuel + 1) ∧ P j := by
  constructor
  · rintro ⟨j, h1, h2, h3⟩
    exact ⟨j, by omega, by omega, h3⟩
  · rintro ⟨j, h1, h2, h3⟩
    rcases Nat.eq_or_lt_of_le h1 with h | h
    · exact absurd h3 (h ▸ hPi)
    · exact ⟨j, by omega, by omega, h3⟩

/-- The retry loop returns normally iff some attempt within its remaining
budget gets a response with status exactly 200. -/
lemma notifyGo_ok_iff (out : Nat → AttemptOutcome) (url : String) (data : CompletionNotice) :
    ∀ fuel i delay, (notifyGo out url data fuel i delay).2 = .ok ()
      ↔ ∃ j, i ≤ j ∧ j < i + fuel ∧ statusOf (out j) = some 200 := by
  intro fuel
  induction fuel with
  | zero =>
    intro i delay
    simp only [notifyGo]
    constructor
    · intro h; cases h
    · rintro ⟨j, h1, h2, _⟩; omega
  | succ fuel ih =>
    intro i delay
    cases hout : out i with
    | transportError =>
      have hPi : ¬ statusOf (out i) = some 200 := by simp [hout, statusOf]
      by_cases hi : i < maxRetries - 1 <;>
        (simp only [notifyGo, hout, hi, if_true, if_false, ite_true, ite_false, ih]
         exact exists_shift (fun j => statusOf (out j) = some 200) i fuel hPi)
    | response s b =>
      by_cases h2xx : axios2xx s
      · by_cases h200 : s = 200
        · subst h200
          simp only [notifyGo, hout, h2xx, ite_true, if_true]
          constructor
          · intro _; exact ⟨i, le_refl i, by omega, by simp [hout, statusOf]⟩
          · intro _; trivial
        · have hPi : ¬ statusOf (out i) = some 200 := by
            simp only [hout, statusOf, Option.some.injEq]
            exact fun h => absurd h h200
          simp only [notifyGo, hout, h2xx, h200, ite_true, ite_false, if_true, if_false, ih]
          exact exists_shift (fun j => statusOf (out j) = some 200) i fuel hPi
      · have hPi : ¬ statusOf (out i) = some 200 := by
          simp only [hout, statusOf, Option.some.injEq]
          intro h; subst h
          simp [axios2xx] at h2xx
        by_cases hi : i < maxRetries - 1 <;>
          (simp only [notifyGo, hout, h2xx, hi, if_true, if_false, ite_true, ite_false,
             Bool.false_eq_true, ih]
           exact exists_shift (fun j => statusOf (out j) = some 200) i fuel hPi)

/-- The whole retry loop — trace and result — depends on the attempt
outcomes only through their status: the response bodies are never
inspected. -/
lemma notifyGo_status_only (out out' : Nat → AttemptOutcome) (url : String)
    (data : CompletionNotice) (h : ∀ j, statusOf (out j) = statusOf (out' j)) :
    ∀ fuel i delay, notifyGo out url data fuel i delay = notifyGo out' url data fuel i delay := by
  intro fuel
  induction fuel with
  | zero => intro i delay; rfl
  | succ fuel ih =>
    intro i delay
    have hi := h i
    cases hout : out i with
    | transportError =>
      cases hout' : out' i with
      | transportError => simp only [notifyGo, hout, hout', ih]
      | response s' b' => rw [hout, hout'] at hi; simp [statusOf] at hi
    | response s b =>
      cases hout' : out' i with
      | transportError => rw [hout, hout'] at hi; simp [statusOf] at hi
      | response s' b' =>
        rw [hout, hout'] at hi
        simp only [statusOf, Option.some.injEq] at hi
        subst hi
        simp only [notifyGo, hout, hout', ih]

/-- Every body POSTed by the retry loop is the unchanged input notice. -/
lemma notifyGo_posts_all (out : Nat → AttemptOutcome) (url : String)
    (data : CompletionNotice) :
    ∀ fuel i delay,
      (noticesOf (notifyGo out url data fuel i delay).1).all (fun b => b == data) = true := by
  intro fuel
  induction fuel with
  | zero => intro i delay; rfl
  | succ fuel ih =>
    intro i delay
    cases hout : out i with
    | transportError =>
      by_cases hi : i < maxRetries - 1 <;> simp [notifyGo, hout, hi, ih]
    | response s b =>
      by_cases h2xx : axios2xx s
      · by_cases h200 : s = 200
        · subst h200; simp [notifyGo, hout, h2xx]
        · simp [notifyGo, hout, h2xx, h200, ih]
      · by_cases hi : i < maxRetries - 1 <;> simp [notifyGo, hout, h2xx, hi, ih]

/-- Unfolding a doubling-backoff delay list by one step. -/
lemma range_map_pow (d N : Nat) :
    (List.range (N + 1)).map (fun k => d * 2 ^ k)
      = d :: (List.range N).map (fun k => d * 2 * 2 ^ k) := by
  rw [List.range_succ_eq_map]
  simp only [List.map_cons, List.map_map, pow_zero, mul_one]
  have hfun : ((fun k => d * 2 ^ k) ∘ Nat.succ) = (fun k => d * 2 * 2 ^ k) := by
    funext k
    simp only [Function.comp_apply, pow_succ]
    ring
  rw [hfun]

/-- If the first `N` attempts after index `i` all fail in the throwing way
(axios rejects) while staying short of the last allowed attempt, and
attempt `i + N` returns status exactly 200, the loop makes `N + 1` POSTs,
sleeps the doubling backoff sequence, and returns normally. -/
lemma notifyGo_fail_then_200 (out : Nat → AttemptOutcome) (url : String)
    (data : CompletionNotice) (b : String) :
    ∀ N i delay fuel, N < fuel → i + N < maxRetries →
      (∀ j, j < N → attemptFails (out (i + j)) = true) →
      out (i + N) = .response 200 b →
      (noticesOf (notifyGo out url data fuel i delay).1).length = N + 1
        ∧ sleepsOf (notifyGo out url data fuel i delay).1
            = (List.range N).map (fun k => delay * 2 ^ k)
        ∧ (notifyGo out url data fuel i delay).2 = .ok () := by
  intro N
  induction N with
  | zero =>
    intro i delay fuel hfuel hlt hfail h200
    obtain ⟨m, rfl⟩ : ∃ m, fuel = m + 1 := ⟨fuel - 1, by omega⟩
    have hi : out i = .response 200 b := by simpa using h200
    have h2xx : axios2xx 200 = true := by simp [axios2xx]
    simp [notifyGo, hi, h2xx]
  | succ N ih =>
    intro i delay fuel hfuel hlt hfail h200
    obtain ⟨m, rfl⟩ : ∃ m, fuel = m + 1 := ⟨fuel - 1, by omega⟩
    have hf0 : attemptFails (out i) = true := by
      simpa using hfail 0 (Nat.succ_pos N)
    have hi : i < maxRetries - 1 := by
      simp only [maxRetries] at hlt ⊢; omega
    have hfail' : ∀ j, j < N → attemptFails (out (i + 1 + j)) = true := by
      intro j hj
      have h := hfail (j + 1) (by omega)
      rwa [show i + 1 + j = i + (j + 1) by omega]
    have h200' : out (i + 1 + N) = .response 200 b := by
      rwa [show i + 1 + N = i + (N + 1) by omega]
    have ihr := ih (i + 1) (delay * 2) m (by omega) (by omega) hfail' h200'
    cases hout : out i with
    | transportError =>
      simp only [notifyGo, hout, hi, if_true, ite_true, noticesOf_post, noticesOf_sleepEv,
        sleepsOf_post, sleepsOf_sleepEv, List.length_cons]
      exact ⟨by rw [ihr.1], by rw [ihr.2.1, range_map_pow], ihr.2.2⟩
    | response s b' =>
      rw [hout] at hf0
      have h2xx : ¬ axios2xx s = true := by
        simpa [attemptFails] using hf0
      simp only [notifyGo, hout, h2xx, hi, if_true, if_false, ite_true, ite_false,
        Bool.false_eq_true, noticesOf_post, noticesOf_sleepEv,
        sleepsOf_post, sleepsOf_sleepEv, List.length_cons]
      exact ⟨by rw [ihr.1], by rw [ihr.2.1, range_map_pow], ihr.2.2⟩

/-- If every attempt in the remaining budget fails in the throwing way,
the loop makes one POST per remaining iteration and ends by throwing
`deliveryFailedErr`. -/
lemma notifyGo_all_fail (out : Nat → AttemptOutcome) (url : String)
    (data : CompletionNotice) :
    ∀ fuel i delay, (∀ j, i ≤ j → j < i + fuel → attemptFails (out j) = true) →
      (noticesOf (notifyGo out url data fuel i delay).1).length = fuel
        ∧ (notifyGo out url data fuel i delay).2 = .error deliveryFailedErr := by
  intro fuel
  induction fuel with
  | zero => intro i delay h; simp [notifyGo]
  | succ fuel ih =>
    intro i delay h
    have hf0 : attemptFails (out i) = true := h i (le_refl i) (by omega)
    have h' : ∀ j, i + 1 ≤ j → j < i + 1 + fuel → attemptFails (out j) = true := by
      intro j h1 h2; exact h j (by omega) (by omega)
    cases hout : out i with
    | transportError =>
      by_cases hi : i < maxRetries - 1 <;>
        simp [notifyGo, hout, hi, (ih (i + 1) (delay * 2) h').1, (ih (i + 1) (delay * 2) h').2,
          (ih (i + 1) delay h').1, (ih (i + 1) delay h').2]
    | response s b =>
      rw [hout] at hf0
      have h2xx : ¬ axios2xx s = true := by simpa [attemptFails] using hf0
      by_cases hi : i < maxRetries - 1 <;>
        simp [notifyGo, hout, h2xx, hi, (ih (i + 1) (delay * 2) h').1,
          (ih (i + 1) (delay * 2) h').2, (ih (i + 1) delay h').1, (ih (i + 1) delay h').2]

/-- When every file write succeeds, the write loop emits exactly one write
call per bundle entry, in insertion order, each with its `Add <filename>`
commit message and base64 content. -/
lemma writeFilesGo_all_ok (env : Env) (o r : String)
    (h : ∀ j, env.writeFileResult j = .ok ()) :
    ∀ files k, writeFilesGo env o r files k
      = (files.map (fun p => Event.fileWriteCall o r p.1 ("Add " ++ p.1) (base64Encode p.2)),
         .ok ()) := by
  intro files
  induction files with
  | nil => intro k; rfl
  | cons f rest ih =>
    intro k
    obtain ⟨fn, content⟩ := f
    simp [writeFilesGo, h k, ih (k + 1)]

/-- When the first `K` write calls succeed and the `K`-th (0-based) throws,
the loop performs exactly the writes for entries `0..K` in order — the
failing call included, nothing after it, no deletions — and rethrows. -/
lemma writeFilesGo_fail_at (env : Env) (o r : String) (e : JsError) :
    ∀ K files k, (∀ j, j < K → env.writeFileResult (k + j) = .ok ()) →
      env.writeFileResult (k + K) = .error e → K < files.length →
      (writeFilesGo env o r files k).1
          = (files.take (K + 1)).map
              (fun p => Event.fileWriteCall o r p.1 ("Add " ++ p.1) (base64Encode p.2))
        ∧ (writeFilesGo env o r files k).2 = .error e := by
  intro K
  induction K with
  | zero =>
    intro files k hok hfail hlen
    cases files with
    | nil => simp at hlen
    | cons f rest =>
      obtain ⟨fn, content⟩ := f
      simp only [Nat.add_zero] at hfail
      simp [writeFilesGo, hfail]
  | succ K ih =>
    intro files k hok hfail hlen
    cases files with
    | nil => simp at hlen
    | cons f rest =>
      obtain ⟨fn, content⟩ := f
      have h0 : env.writeFileResult k = .ok () := by simpa using hok 0 (Nat.succ_pos K)
      have hok' : ∀ j, j < K → env.writeFileResult (k + 1 + j) = .ok () := by
        intro j hj
        have h := hok (j + 1) (by omega)
        rwa [show k + 1 + j = k + (j + 1) by omega]
      have hfail' : env.writeFileResult (k + 1 + K) = .error e := by
        rwa [show k + 1 + K = k + (K + 1) by omega]
      have hr := ih rest (k + 1) hok' hfail' (by simpa using hlen)
      simp [writeFilesGo, h0, hr.1, hr.2]

/-- The write loop never POSTs a notification. -/
lemma noticesOf_writeFilesGo (env : Env) (o r : String) :
    ∀ files k, noticesOf (writeFilesGo env o r files k).1 = [] := by
  intro files
  induction files with
  | nil => intro k; rfl
  | cons f rest ih =>
    intro k
    obtain ⟨fn, content⟩ := f
    have hrec := ih (k + 1)
    simp only [noticesOf] at hrec ⊢
    cases hw : env.writeFileResult k <;>
      simp only [writeFilesGo, hw, List.filterMap_cons] <;>
      simp [hrec]

/-- The write loop never creates a repository. -/
lemma repoCreatesOf_writeFilesGo (env : Env) (o r : String) :
    ∀ files k, repoCreatesOf (writeFilesGo env o r files k).1 = [] := by
  intro files
  induction files with
  | nil => intro k; rfl
  | cons f rest ih =>
    intro k
    obtain ⟨fn, content⟩ := f
    have hrec := ih (k + 1)
    simp only [repoCreatesOf] at hrec ⊢
    cases hw : env.writeFileResult k <;>
      simp only [writeFilesGo, hw, List.filterMap_cons] <;>
      simp [hrec]

/-- `createGitHubRepo` never POSTs a notification. -/
lemma noticesOf_createGitHubRepo (env : Env) (n : String) (files : List (String × String)) :
    noticesOf (createGitHubRepo env n files).1 = [] := by
  cases ha : env.authUser with
  | error e => simp [createGitHubRepo, ha, noticesOf]
  | ok u =>
    cases hc : env.createRepoResult with
    | error e => simp [createGitHubRepo, ha, hc, noticesOf, List.filterMap_cons]
    | ok repo =>
      have hrec := noticesOf_writeFilesGo env u n files 0
      simp only [noticesOf] at hrec
      simp only [createGitHubRepo, ha, hc, noticesOf, List.filterMap_cons]
      simp [hrec]

/-- Every repository-creation call of `createGitHubRepo` uses exactly the
name it was given. -/
lemma repoCreatesOf_createGitHubRepo_all (env : Env) (n : String)
    (files : List (String × String)) :
    (repoCreatesOf (createGitHubRepo env n files).1).all (fun x => x == n) = true := by
  cases ha : env.authUser with
  | error e => simp [createGitHubRepo, ha, repoCreatesOf]
  | ok u =>
    cases hc : env.createRepoResult with
    | error e => simp [createGitHubRepo, ha, hc, repoCreatesOf, List.filterMap_cons]
    | ok repo =>
      have hrec := repoCreatesOf_writeFilesGo env u n files 0
      simp only [repoCreatesOf] at hrec
      simp only [createGitHubRepo, ha, hc, repoCreatesOf, List.filterMap_cons]
      simp [hrec]

/-- If `createGitHubRepo` returns a repository, it is the one the create
call produced. -/
lemma createGitHubRepo_ok_repo (env : Env) (n : String) (files : List (String × String))
    (repo : RepoData) :
    (createGitHubRepo env n files).2 = .ok repo → env.createRepoResult = .ok repo := by
  cases ha : env.authUser with
  | error e => simp [createGitHubRepo, ha]
  | ok u =>
    cases hc : env.createRepoResult with
    | error e => simp [createGitHubRepo, ha, hc]
    | ok repo' =>
      cases hw : (writeFilesGo env u n files 0).2 with
      | error e => simp [createGitHubRepo, ha, hc, hw]
      | ok _ =>
        simp only [createGitHubRepo, ha, hc, hw]
        intro h
        cases h
        rfl

/-- When the LLM call throws, the detached pipeline performs only that one
call and the terminal error log: nothing else happens and nothing escapes. -/
lemma processRequest_llm_error (env : Env) (d : PipelineData) (e : JsError)
    (h : env.llmResult = .error e) :
    processRequest env d
      = [.llmCall (buildPrompt d.brief d.attachments d.checks), .logError e] := by
  simp [processRequest, generateCode, h]

@[simp] lemma endsWithLogOnly_append_logError (l : List Event) (e : JsError) :
    endsWithLogOnly (l ++ [.logError e]) = true := by
  simp [endsWithLogOnly, List.getLast?_concat]

@[simp] lemma endsWithLogOnly_append_logSuccess (l : List Event) (t : String) :
    endsWithLogOnly (l ++ [.logSuccess t]) = true := by
  simp [endsWithLogOnly, List.getLast?_concat]

/-- Whatever the collaborators do, the detached pipeline's last action is
one of its two terminal log lines: every failure is absorbed by the
outer catch and converted into a log entry. -/
lemma processRequest_ends_log (env : Env) (d : PipelineData) :
    endsWithLogOnly (processRequest env d) = true := by
  simp only [processRequest]
  repeat' split
  all_goals
    first
      | exact endsWithLogOnly_append_logError _ _
      | exact endsWithLogOnly_append_logSuccess _ _

@[simp] lemma noticesOf_enable (res : Except JsError Unit) (o r : String) :
    noticesOf (enableGitHubPages res o r).1 = [] := rfl

@[simp] lemma repoCreatesOf_enable (res : Except JsError Unit) (o r : String) :
    repoCreatesOf (enableGitHubPages res o r).1 = [] := rfl

/-- Every notification body POSTed by the retry loop satisfies any
predicate the input notice satisfies (the loop only ever POSTs `data`). -/
lemma notifyGo_posts_pred (out : Nat → AttemptOutcome) (url : String)
    (data : CompletionNotice) (p : CompletionNotice → Bool) (hp : p data = true) :
    ∀ fuel i delay,
      (noticesOf (notifyGo out url data fuel i delay).1).all p = true := by
  intro fuel
  induction fuel with
  | zero => intro i delay; rfl
  | succ fuel ih =>
    intro i delay
    cases hout : out i with
    | transportError =>
      by_cases hi : i < maxRetries - 1 <;> simp [notifyGo, hout, hi, hp, ih]
    | response s b =>
      by_cases h2xx : axios2xx s
      · by_cases h200 : s = 200
        · subst h200; simp [notifyGo, hout, h2xx, hp]
        · simp [notifyGo, hout, h2xx, h200, hp, ih]
      · by_cases hi : i < maxRetries - 1 <;> simp [notifyGo, hout, h2xx, hi, hp, ih]

/-- The retry loop never creates a repository. -/
lemma repoCreatesOf_notifyGo (out : Nat → AttemptOutcome) (url : String)
    (data : CompletionNotice) :
    ∀ fuel i delay, repoCreatesOf (notifyGo out url data fuel i delay).1 = [] := by
  intro fuel
  induction fuel with
  | zero => intro i delay; rfl
  | succ fuel ih =>
    intro i delay
    have hrec1 := ih (i + 1) delay
    have hrec2 := ih (i + 1) (delay * 2)
    simp only [repoCreatesOf] at hrec1 hrec2 ⊢
    cases hout : out i with
    | transportError =>
      by_cases hi : i < maxRetries - 1 <;>
        simp [notifyGo, hout, hi, List.filterMap_cons, hrec1, hrec2]
    | response s b =>
      by_cases h2xx : axios2xx s
      · by_cases h200 : s = 200
        · subst h200; simp [notifyGo, hout, h2xx, List.filterMap_cons]
        · simp [notifyGo, hout, h2xx, h200, List.filterMap_cons, hrec1]
      · by_cases hi : i < maxRetries - 1 <;>
          simp [notifyGo, hout, h2xx, hi, List.filterMap_cons, hrec1, hrec2]

/-- When every upstream collaborator succeeds, `createGitHubRepo` returns
the created repository. -/
lemma createGitHubRepo_all_ok (env : Env) (n : String) (files : List (String × String))
    (u : String) (repo : RepoData) (hu : env.authUser = .ok u)
    (hr : env.createRepoResult = .ok repo) (hw : ∀ j, env.writeFileResult j = .ok ()) :
    (createGitHubRepo env n files).2 = .ok repo := by
  simp [createGitHubRepo, hu, hr, writeFilesGo_all_ok env u n hw files 0]

/-- As soon as the authenticated-user lookup succeeds, exactly one
repository-creation call happens, with the supplied name. -/
lemma repoCreatesOf_createGitHubRepo_eq (env : Env) (n : String)
    (files : List (String × String)) (u : String) (hu : env.authUser = .ok u) :
    repoCreatesOf (createGitHubRepo env n files).1 = [n] := by
  cases hc : env.createRepoResult with
  | error e => simp [createGitHubRepo, hu, hc, repoCreatesOf, List.filterMap_cons]
  | ok repo =>
    have hrec := repoCreatesOf_writeFilesGo env u n files 0
    simp only [repoCreatesOf] at hrec
    simp only [createGitHubRepo, hu, hc, repoCreatesOf, List.filterMap_cons]
    simp [hrec]

/-- Translating a list of write events back to tuples. -/
lemma fileWritesOf_writeEvents (o r : String) (files : List (String × String)) :
    fileWritesOf (files.map
        (fun p => Event.fileWriteCall o r p.1 ("Add " ++ p.1) (base64Encode p.2)))
      = files.map (fun p => (o, r, p.1, "Add " ++ p.1, base64Encode p.2)) := by
  induction files with
  | nil => rfl
  | cons f rest ih =>
    obtain ⟨fn, c⟩ := f
    simp only [fileWritesOf] at ih ⊢
    simp only [List.map_cons, List.filterMap_cons]
    simp [ih]

/-- Claim C1, counterexample. The claim says delivery is judged a success
if and only if the response status is in the 200 class (2xx). In the code
(`src/server.js` lines 167-186) axios resolves a 204 response, but the
`response.status === 200` check fails, so the loop silently retries and
finally throws the delivery-failure error: an endpoint answering 204 —
a 200-class status — on every attempt is judged a failure, refuting the
"if" direction of the claim at this concrete input. -/
theorem notify_2xx_response_judged_failure_cex :
    axios2xx 204 = true
      ∧ (notifyEvaluation wOut204 cNotice cUrl).2 = .error deliveryFailedErr :=
  ⟨by rfl, by rfl⟩

/-- Claim C1, amended: delivery is judged a success if and only if some
attempt's response has status exactly 200; every other outcome — a 2xx
status other than 200, a 404 or 500 response (axios rejects those), or a
transport error — is treated as a failed attempt; and the whole delivery
behaviour (trace and result) depends only on response statuses, never on
response bodies. -/
theorem notify_success_iff_status200 (data : CompletionNotice) (url : String)
    (out out' : Nat → AttemptOutcome)
    (h : ∀ j, statusOf (out j) = statusOf (out' j)) :
    ((notifyEvaluation out data url).2 = .ok ()
        ↔ ∃ j, j < maxRetries ∧ statusOf (out j) = some 200)
      ∧ notifyEvaluation out data url = notifyEvaluation out' data url := by
  constructor
  · rw [notifyEvaluation, notifyGo_ok_iff]
    constructor
    · rintro ⟨j, h1, h2, h3⟩
      exact ⟨j, by omega, h3⟩
    · rintro ⟨j, h1, h2⟩
      exact ⟨j, by omega, by omega, h2⟩
  · exact notifyGo_status_only out out' url data h maxRetries 0 1000

/-- Witness for the amended C1 at a concrete always-200 endpoint. -/
theorem notify_success_iff_status200_witness :
    ((notifyEvaluation wOut200 cNotice cUrl).2 = .ok ()
        ↔ ∃ j, j < maxRetries ∧ statusOf (wOut200 j) = some 200)
      ∧ notifyEvaluation wOut200 cNotice cUrl = notifyEvaluation wOut200 cNotice cUrl :=
  notify_success_iff_status200 cNotice cUrl wOut200 wOut200 (fun _ => rfl)

/-- Claim C2: an endpoint failing the first `N` attempts (`N < 5`, failures
being rejected requests: transport errors, timeouts, or non-2xx statuses)
and answering 200 on the next causes exactly `N + 1` POST attempts with
sleeps of 1000, 2000, 4000, ... ms — doubling each time — before success;
an endpoint failing all attempts causes exactly 5 POST attempts, after
which `notifyEvaluation` throws the delivery-failure error. -/
theorem notifier_backoff_schedule (out : Nat → AttemptOutcome) (data : CompletionNotice)
    (url : String) (N : Nat) (b : String) :
    (N < maxRetries → (∀ j, j < N → attemptFails (out j) = true) →
        out N = .response 200 b →
          (noticesOf (notifyEvaluation out data url).1).length = N + 1
        ∧ sleepsOf (notifyEvaluation out data url).1
            = (List.range N).map (fun k => 1000 * 2 ^ k)
        ∧ (notifyEvaluation out data url).2 = .ok ())
      ∧ ((∀ j, j < maxRetries → attemptFails (out j) = true) →
          (noticesOf (notifyEvaluation out data url).1).length = maxRetries
        ∧ (notifyEvaluation out data url).2 = .error deliveryFailedErr) := by
  constructor
  · intro hN hfail h200
    have hr := notifyGo_fail_then_200 out url data b N 0 1000 maxRetries hN
      (by simpa using hN) (fun j hj => by simpa using hfail j hj) (by simpa using h200)
    exact ⟨hr.1, hr.2.1, hr.2.2⟩
  · intro hfail
    exact notifyGo_all_fail out url data maxRetries 0 1000
      (fun j h1 h2 => hfail j (by omega))

/-- Witness for C2: two throwing failures then a 200 gives 3 attempts and
sleeps [1000, 2000]; an always-failing endpoint gives 5 attempts and the
delivery-failure error. -/
theorem notifier_backoff_schedule_witness :
    ((noticesOf (notifyEvaluation wOutN cNotice cUrl).1).length = 2 + 1
      ∧ sleepsOf (notifyEvaluation wOutN cNotice cUrl).1
          = (List.range 2).map (fun k => 1000 * 2 ^ k)
      ∧ (notifyEvaluation wOutN cNotice cUrl).2 = .ok ())
      ∧ ((noticesOf (notifyEvaluation wOutFail cNotice cUrl).1).length = maxRetries
        ∧ (notifyEvaluation wOutFail cNotice cUrl).2 = .error deliveryFailedErr) :=
  ⟨(notifier_backoff_schedule wOutN cNotice cUrl 2 "done").1 (by decide)
      (by decide) (by rfl),
   (notifier_backoff_schedule wOutFail cNotice cUrl 0 "").2 (fun j hj => rfl)⟩

/-- Claim C9: a request whose secret differs from the configured value gets
a 403 response and the pipeline is never scheduled; an authorized request
gets the 200 acknowledgment strictly before the detached pipeline is
fired (the handler's action list is exactly `[respond 200, runPipeline]`
in that order). -/
theorem intake_auth_gate (secretKey : Option String) (b : BuildBody) :
    (b.secret ≠ secretKey → buildEndpoint secretKey b = [.respond 403])
      ∧ (b.secret = secretKey →
          buildEndpoint secretKey b = [.respond 200, .runPipeline (pipelineData b)]) := by
  constructor
  · intro h
    simp [buildEndpoint, h]
  · intro h
    simp [buildEndpoint, h]

/-- Witness for C9 at concrete bodies: a wrong secret is rejected with 403
only; the right secret is acknowledged and then processed. -/
theorem intake_auth_gate_witness :
    buildEndpoint (some "k") cBodyBad = [.respond 403]
      ∧ buildEndpoint (some "k") cBodyGood
          = [.respond 200, .runPipeline (pipelineData cBodyGood)] :=
  ⟨(intake_auth_gate (some "k") cBodyBad).1 (by decide),
   (intake_auth_gate (some "k") cBodyGood).2 (by rfl)⟩

/-- Claim C10 (implicit): the authorization check is the plain inequality
`secret !== process.env.SECRET_KEY`. With `SECRET_KEY` unset (`none`) and
the request omitting `secret` (`none`), the two sides compare equal, so
the request is authorized: the handler acknowledges with 200 and fires the
full pipeline instead of rejecting with 403. -/
theorem unset_secret_authorizes (b : BuildBody) (h : b.secret = none) :
    buildEndpoint none b = [.respond 200, .runPipeline (pipelineData b)] := by
  simp [buildEndpoint, h]

/-- Witness for C10 at a concrete secretless body. -/
theorem unset_secret_authorizes_witness :
    buildEndpoint none cBodyNoSecret
      = [.respond 200, .runPipeline (pipelineData cBodyNoSecret)] :=
  unset_secret_authorizes cBodyNoSecret (by rfl)

/-- Claim C3, counterexample. The claim says empty generated content is
treated as a generation failure that terminates the pipeline before any
publish step. In the code (`src/server.js` lines 93-117) `generateCode`
never checks the model output for emptiness: with the model returning the
empty string (and every other collaborator succeeding) the pipeline issues
publish calls and even finishes with its success log line. -/
theorem empty_generation_published_cex :
    (processRequest cEnvEmpty cData).any isPublishCall = true
      ∧ (processRequest cEnvEmpty cData).getLast? = some (.logSuccess "t1") :=
  ⟨by rfl, by rfl⟩

/-- Claim C3, amended: if the Content Generator throws, the pipeline fails
at step 1 — the failure is logged, the run terminates, and no publish call
or notification POST is ever made. Empty generated content, however, is
not detected: only a thrown generation error stops the pipeline (see the
counterexample for the empty-content half of the original claim). -/
theorem generation_error_skips_publish (env : Env) (d : PipelineData) (e : JsError)
    (h : env.llmResult = .error e) :
    (processRequest env d).filter isPublishCall = []
      ∧ noticesOf (processRequest env d) = []
      ∧ (processRequest env d).getLast? = some (.logError e) := by
  rw [processRequest_llm_error env d e h]
  exact ⟨rfl, rfl, rfl⟩

/-- Witness for the amended C3 at a concrete throwing generator. -/
theorem generation_error_skips_publish_witness :
    (processRequest cEnvLLMFail cData).filter isPublishCall = []
      ∧ noticesOf (processRequest cEnvLLMFail cData) = []
      ∧ (processRequest cEnvLLMFail cData).getLast? = some (.logError cLlmErr) :=
  generation_error_skips_publish cEnvLLMFail cData cLlmErr (by rfl)

/-- Claim C4: when the generation step throws, the detached pipeline's
whole trace is the one LLM call followed by the error log — so no publish
call and no notification POST ever happens; and for any run whatsoever the
pipeline's final action is one of its two log lines, i.e. every error is
absorbed at the outer boundary and converted into a log entry; the model
of `processRequest` is a total function into traces, with no error channel
back to the HTTP layer (the acknowledgment was already sent at intake). -/
theorem generation_failure_isolated (env : Env) (d : PipelineData) (e : JsError)
    (env2 : Env) (d2 : PipelineData) (h : env.llmResult = .error e) :
    processRequest env d
        = [.llmCall (buildPrompt d.brief d.attachments d.checks), .logError e]
      ∧ endsWithLogOnly (processRequest env2 d2) = true :=
  ⟨processRequest_llm_error env d e h, processRequest_ends_log env2 d2⟩

/-- Witness for C4 at a concrete throwing generator (and a concrete second
run for the logging conjunct). -/
theorem generation_failure_isolated_witness :
    processRequest cEnvLLMFail cData
        = [.llmCall (buildPrompt cData.brief cData.attachments cData.checks),
           .logError cLlmErr]
      ∧ endsWithLogOnly (processRequest cEnvOk cData) = true :=
  generation_failure_isolated cEnvLLMFail cData cLlmErr cEnvOk cData (by rfl)

/-- Claim C5: the Artifact Publisher writes the bundle's files one at a
time, sequentially, in insertion order, each tagged with its own
`Add <filename>` commit message. If every write succeeds the write calls
are exactly the bundle in order; if the write of entry `K` (0-based)
throws, entries `0..K` are attempted in order, no entry after `K` is
written or retried, no earlier write is reverted (the trace contains
exactly those writes and nothing else touching them), and the failure is
rethrown. -/
theorem publisher_sequential_writes (env : Env) (repoName : String)
    (files : List (String × String)) (u : String) (repo : RepoData)
    (hu : env.authUser = .ok u) (hr : env.createRepoResult = .ok repo) :
    ((∀ j, env.writeFileResult j = .ok ()) →
        fileWritesOf (createGitHubRepo env repoName files).1
            = files.map (fun p => (u, repoName, p.1, "Add " ++ p.1, base64Encode p.2))
      ∧ (createGitHubRepo env repoName files).2 = .ok repo)
      ∧ (∀ K e, (∀ j, j < K → env.writeFileResult j = .ok ()) →
          env.writeFileResult K = .error e → K < files.length →
            fileWritesOf (createGitHubRepo env repoName files).1
                = (files.take (K + 1)).map
                    (fun p => (u, repoName, p.1, "Add " ++ p.1, base64Encode p.2))
          ∧ (createGitHubRepo env repoName files).2 = .error e) := by
  constructor
  · intro hok
    have hmap := fileWritesOf_writeEvents u repoName files
    simp only [fileWritesOf] at hmap
    simp only [createGitHubRepo, hu, hr, writeFilesGo_all_ok env u repoName hok files 0]
    constructor
    · simp only [fileWritesOf, List.filterMap_cons]
      simpa using hmap
    · trivial
  · intro K e hok hfail hlen
    have hw := writeFilesGo_fail_at env u repoName e K files 0
      (fun j hj => by simpa using hok j hj) (by simpa using hfail) hlen
    have hmap := fileWritesOf_writeEvents u repoName (files.take (K + 1))
    simp only [fileWritesOf] at hmap
    simp only [createGitHubRepo, hu, hr, hw.1, hw.2]
    constructor
    · simp only [fileWritesOf, List.filterMap_cons]
      simpa using hmap
    · trivial

/-- Witness for C5: with every write succeeding all three entries are
written in order; with the second write call (index 1) throwing, exactly
entries 0 and 1 are attempted in order and the error propagates. -/
theorem publisher_sequential_writes_witness :
    (fileWritesOf (createGitHubRepo cEnvOk "t1-round2" cFiles).1
        = cFiles.map (fun p => ("owner1", "t1-round2", p.1, "Add " ++ p.1, base64Encode p.2))
      ∧ (createGitHubRepo cEnvOk "t1-round2" cFiles).2 = .ok cRepo)
      ∧ (fileWritesOf (createGitHubRepo cEnvWFail "t1-round2" cFiles).1
          = (cFiles.take 2).map
              (fun p => ("owner1", "t1-round2", p.1, "Add " ++ p.1, base64Encode p.2))
        ∧ (createGitHubRepo cEnvWFail "t1-round2" cFiles).2 = .error cWErr) :=
  ⟨(publisher_sequential_writes cEnvOk "t1-round2" cFiles "owner1" cRepo rfl rfl).1
      (fun _ => rfl),
   (publisher_sequential_writes cEnvWFail "t1-round2" cFiles "owner1" cRepo rfl rfl).2
      1 cWErr (fun j hj => by
        have hj0 : j = 0 := by omega
        subst hj0
        rfl) (by rfl) (by decide)⟩

@[simp] lemma noticesOf_llm (p : String) (l : List Event) :
    noticesOf (.llmCall p :: l) = noticesOf l := rfl

@[simp] lemma noticesOf_logErr (e : JsError) (l : List Event) :
    noticesOf (.logError e :: l) = noticesOf l := rfl

@[simp] lemma noticesOf_logSucc (t : String) (l : List Event) :
    noticesOf (.logSuccess t :: l) = noticesOf l := rfl

/-- Claim C7: the completion notice is built exactly once, from the
pipeline input and the created repository's data, before the notifier is
called — and every notification POST of a run (i.e. every retry attempt)
carries that identical notice value; no field is mutated or recomputed
between attempts. -/
theorem notice_never_mutated (env : Env) (d : PipelineData) (repo : RepoData)
    (h : env.createRepoResult = .ok repo) :
    (noticesOf (processRequest env d)).all
      (fun b => b == mkCompletionNotice d repo) = true := by
  cases hl : env.llmResult with
  | error e =>
    rw [processRequest_llm_error env d e hl]
    rfl
  | ok c =>
    have hposts := notifyGo_posts_pred env.notifyOutcomes d.evaluationUrl
      (mkCompletionNotice d repo) (fun b => b == mkCompletionNotice d repo)
      (by simp) maxRetries 0 1000
    simp only [processRequest, generateCode, hl]
    split
    · next e heq =>
      simp only [noticesOf_append, noticesOf_createGitHubRepo, noticesOf_llm,
        noticesOf_logErr, noticesOf_nil, List.append_nil, List.nil_append]
      rfl
    · next repo' heq =>
      have hrepo : env.createRepoResult = .ok repo' :=
        createGitHubRepo_ok_repo env _ _ repo' heq
      rw [h] at hrepo
      injection hrepo with h'
      subst h'
      split
      · next e2 heq2 =>
        simp only [noticesOf_append, noticesOf_createGitHubRepo, noticesOf_enable,
          noticesOf_llm, noticesOf_logErr, noticesOf_nil, List.append_nil,
          List.nil_append]
        rfl
      · next u2 heq2 =>
        split
        · next e3 heq3 =>
          simp only [notifyEvaluation, noticesOf_append, noticesOf_createGitHubRepo,
            noticesOf_enable, noticesOf_llm, noticesOf_logErr, noticesOf_logSucc,
            noticesOf_sleepEv, noticesOf_nil, List.append_nil, List.nil_append]
          exact hposts
        · next u3 heq3 =>
          simp only [notifyEvaluation, noticesOf_append, noticesOf_createGitHubRepo,
            noticesOf_enable, noticesOf_llm, noticesOf_logErr, noticesOf_logSucc,
            noticesOf_sleepEv, noticesOf_nil, List.append_nil, List.nil_append]
          exact hposts

/-- Witness for C7 at a fully successful concrete run. -/
theorem notice_never_mutated_witness :
    (noticesOf (processRequest cEnvOk cData)).all
      (fun b => b == mkCompletionNotice cData cRepo) = true :=
  notice_never_mutated cEnvOk cData cRepo (by rfl)

@[simp] lemma repoCreatesOf_nil : repoCreatesOf [] = [] := rfl

@[simp] lemma repoCreatesOf_append (l1 l2 : List Event) :
    repoCreatesOf (l1 ++ l2) = repoCreatesOf l1 ++ repoCreatesOf l2 :=
  List.filterMap_append l1 l2 _

@[simp] lemma repoCreatesOf_llm (p : String) (l : List Event) :
    repoCreatesOf (.llmCall p :: l) = repoCreatesOf l := rfl

@[simp] lemma repoCreatesOf_sleepEv (ms : Nat) (l : List Event) :
    repoCreatesOf (.sleep ms :: l) = repoCreatesOf l := rfl

@[simp] lemma repoCreatesOf_logErr (e : JsError) (l : List Event) :
    repoCreatesOf (.logError e :: l) = repoCreatesOf l := rfl

@[simp] lemma repoCreatesOf_logSucc (t : String) (l : List Event) :
    repoCreatesOf (.logSuccess t :: l) = repoCreatesOf l := rfl

/-- Claim C8: the published location name is derived deterministically
from the request as `repoNameOf task round` — every repository-creation
call of a run uses exactly that name, and as soon as generation and the
user lookup succeed exactly one such call occurs — and the public URL in
every notification body is derived locally as
`pagesUrlOf owner repoName` (the created-repository record carries no
Pages URL that could have come from the remote system). -/
theorem derived_location_and_url (env : Env) (d : PipelineData) (repo : RepoData)
    (c u : String) (h : env.createRepoResult = .ok repo) :
    (repoCreatesOf (processRequest env d)).all
        (fun x => x == repoNameOf d.task d.round) = true
      ∧ (noticesOf (processRequest env d)).all
          (fun b => b.pagesUrl == pagesUrlOf repo.ownerLogin (repoNameOf d.task d.round))
            = true
      ∧ (env.llmResult = .ok c → env.authUser = .ok u →
          repoCreatesOf (processRequest env d) = [repoNameOf d.task d.round]) := by
  refine ⟨?_, ?_, ?_⟩
  · cases hl : env.llmResult with
    | error e =>
      rw [processRequest_llm_error env d e hl]
      rfl
    | ok c0 =>
      simp only [processRequest, generateCode, hl]
      split
      · next e heq =>
        simp only [repoCreatesOf_append, repoCreatesOf_llm, repoCreatesOf_logErr,
          repoCreatesOf_nil, List.append_nil, List.nil_append]
        exact repoCreatesOf_createGitHubRepo_all env _ _
      · next repo' heq =>
        split
        · next e2 heq2 =>
          simp only [repoCreatesOf_append, repoCreatesOf_llm, repoCreatesOf_logErr,
            repoCreatesOf_enable, repoCreatesOf_nil, List.append_nil, List.nil_append]
          exact repoCreatesOf_createGitHubRepo_all env _ _
        · next u2 heq2 =>
          split <;>
            (simp only [notifyEvaluation, repoCreatesOf_append, repoCreatesOf_llm,
               repoCreatesOf_logErr, repoCreatesOf_logSucc, repoCreatesOf_sleepEv,
               repoCreatesOf_enable, repoCreatesOf_notifyGo, repoCreatesOf_nil,
               List.append_nil, List.nil_append]
             exact repoCreatesOf_createGitHubRepo_all env _ _)
  · cases hl : env.llmResult with
    | error e =>
      rw [processRequest_llm_error env d e hl]
      rfl
    | ok c0 =>
      have hposts := notifyGo_posts_pred env.notifyOutcomes d.evaluationUrl
        (mkCompletionNotice d repo)
        (fun b => b.pagesUrl == pagesUrlOf repo.ownerLogin (repoNameOf d.task d.round))
        (by simp [mkCompletionNotice]) maxRetries 0 1000
      simp only [processRequest, generateCode, hl]
      split
      · next e heq =>
        simp only [noticesOf_append, noticesOf_createGitHubRepo, noticesOf_llm,
          noticesOf_logErr, noticesOf_nil, List.append_nil, List.nil_append]
        rfl
      · next repo' heq =>
        have hrepo : env.createRepoResult = .ok repo' :=
          createGitHubRepo_ok_repo env _ _ repo' heq
        rw [h] at hrepo
        injection hrepo with h'
        subst h'
        split
        · next e2 heq2 =>
          simp only [noticesOf_append, noticesOf_createGitHubRepo, noticesOf_enable,
            noticesOf_llm, noticesOf_logErr, noticesOf_nil, List.append_nil,
            List.nil_append]
          rfl
        · next u2 heq2 =>
          split <;>
            (simp only [notifyEvaluation, noticesOf_append, noticesOf_createGitHubRepo,
               noticesOf_enable, noticesOf_llm, noticesOf_logErr, noticesOf_logSucc,
               noticesOf_sleepEv, noticesOf_nil, List.append_nil, List.nil_append]
             exact hposts)
  · intro hl hu
    have hc1 := repoCreatesOf_createGitHubRepo_eq env (repoNameOf d.task d.round)
      [("index.html", stripCodeFences c), ("README.md", generateReadme d.brief d.checks),
       ("LICENSE", getMITLicense env.currentYear)] u hu
    simp only [processRequest, generateCode, hl]
    split
    · next e heq =>
      simp only [repoCreatesOf_append, repoCreatesOf_llm, repoCreatesOf_logErr,
        repoCreatesOf_nil, List.append_nil, List.nil_append, hc1]
    · next repo' heq =>
      split
      · next e2 heq2 =>
        simp only [repoCreatesOf_append, repoCreatesOf_llm, repoCreatesOf_logErr,
          repoCreatesOf_enable, repoCreatesOf_nil, List.append_nil, List.nil_append, hc1]
      · next u2 heq2 =>
        split <;>
          simp only [notifyEvaluation, repoCreatesOf_append, repoCreatesOf_llm,
            repoCreatesOf_logErr, repoCreatesOf_logSucc, repoCreatesOf_sleepEv,
            repoCreatesOf_enable, repoCreatesOf_notifyGo, repoCreatesOf_nil,
            List.append_nil, List.nil_append, hc1]

/-- Witness for C8 at a fully successful concrete run: exactly one
creation call, named by the derived location name. -/
theorem derived_location_and_url_witness :
    (repoCreatesOf (processRequest cEnvOk cData)).all
        (fun x => x == repoNameOf cData.task cData.round) = true
      ∧ (noticesOf (processRequest cEnvOk cData)).all
          (fun b => b.pagesUrl
            == pagesUrlOf cRepo.ownerLogin (repoNameOf cData.task cData.round)) = true
      ∧ repoCreatesOf (processRequest cEnvOk cData)
          = [repoNameOf cData.task cData.round] := by
  have h := derived_location_and_url cEnvOk cData cRepo "<p>hello</p>" "owner1" (by rfl)
  exact ⟨h.1, h.2.1, h.2.2 (by rfl) (by rfl)⟩

/-- Claim C6: the hosting-enable operation treats the 409 conflict
("Pages already enabled") as success — its result is ok exactly when the
underlying call succeeds or throws a status-409 error — while any other
failure is rethrown and terminates the pipeline: with all earlier stages
succeeding and `createPagesSite` throwing a non-409 error, the run sends
no notification and ends with that error logged. -/
theorem pages_conflict_is_success (res : Except JsError Unit) (o r : String)
    (env : Env) (d : PipelineData) (c u : String) (repo : RepoData) (e : JsError) :
    ((enableGitHubPages res o r).2 = .ok ()
        ↔ res = .ok () ∨ ∃ e', res = .error e' ∧ e'.status = some 409)
      ∧ (env.llmResult = .ok c → env.authUser = .ok u → env.createRepoResult = .ok repo →
          (∀ j, env.writeFileResult j = .ok ()) →
          env.createPagesResult = .error e → e.status ≠ some 409 →
            noticesOf (processRequest env d) = []
          ∧ (processRequest env d).getLast? = some (.logError e)) := by
  constructor
  · cases res with
    | ok v =>
      cases v
      simp [enableGitHubPages]
    | error e' =>
      by_cases h409 : e'.status = some 409 <;> simp [enableGitHubPages, h409]
  · intro hl hu hr hw hp h409
    have hco : (createGitHubRepo env (repoNameOf d.task d.round)
        [("index.html", stripCodeFences c), ("README.md", generateReadme d.brief d.checks),
         ("LICENSE", getMITLicense env.currentYear)]).2 = .ok repo :=
      createGitHubRepo_all_ok env _ _ u repo hu hr hw
    have hpe : ∀ o' r', (enableGitHubPages env.createPagesResult o' r').2 = .error e := by
      intro o' r'
      simp [enableGitHubPages, hp, h409]
    simp only [processRequest, generateCode, hl]
    split
    · next e0 heq =>
      rw [hco] at heq
      exact Except.noConfusion heq
    · next repo' heq =>
      rw [hco] at heq
      injection heq with h'
      subst h'
      split
      · next e2 heq2 =>
        rw [hpe _ _] at heq2
        injection heq2 with h2
        subst h2
        constructor
        · simp only [noticesOf_append, noticesOf_createGitHubRepo, noticesOf_enable,
            noticesOf_llm, noticesOf_logErr, noticesOf_nil, List.append_nil,
            List.nil_append]
        · exact List.getLast?_concat _
      · next u2 heq2 =>
        rw [hpe _ _] at heq2
        exact Except.noConfusion heq2

/-- Witness for C6: a thrown 409 is swallowed; with all earlier stages
succeeding and a concrete 500 from `createPagesSite`, the run sends no
notification and ends logging that error. -/
theorem pages_conflict_is_success_witness :
    ((enableGitHubPages (.error c409Err) "owner1" "t1-round2").2 = .ok ()
        ↔ (.error c409Err : Except JsError Unit) = .ok ()
          ∨ ∃ e', (.error c409Err : Except JsError Unit) = .error e'
              ∧ e'.status = some 409)
      ∧ (noticesOf (processRequest cEnvPagesFail cData) = []
        ∧ (processRequest cEnvPagesFail cData).getLast? = some (.logError cPagesErr)) := by
  have h := pages_conflict_is_success (.error c409Err) "owner1" "t1-round2"
    cEnvPagesFail cData "<p>hello</p>" "owner1" cRepo cPagesErr
  exact ⟨h.1, h.2 (by rfl) (by rfl) (by rfl) (fun _ => rfl) (by rfl) (by decide)⟩
